import Mathlib

/-!
Verification development for the auction-server repository.

This file shallowly embeds the websocket bid pipeline, the auction
settlement path, the sweep scheduler, the hub broadcast, and the store
adapter of the repository, and proves (or refutes) the frozen claims
about them.

Conventions of the embedding:
* Go `int` becomes `Int`; instants (`time.Time`) become `Int` (Unix
  seconds); nullable ids (`*string`) become `Option String`.
* Database rows live in an explicit `DB` value; the SQL statements of
  the store adapter are embedded as pure functions on `DB`.  A failing
  `QueryRow` (no row) is `none`.
* Channels and sockets are replaced by explicit lists of emitted
  frames; sending on a client's `Send` channel appends a `Frame`.
* JSON bytes arriving from the socket are modelled as `Option JValue`:
  `none` stands for bytes that are not valid JSON, `some v` for bytes
  whose JSON value is `v`.  Go's `encoding/json` struct decoding of
  that value (absent field ⇒ zero value, wrong type ⇒ error, unknown
  keys ignored, later duplicate keys win) is embedded explicitly.
-/

set_option maxHeartbeats 1000000

/-- Embeds `types.Auctions` (pkg/types): one auction row. -/
structure Auction where
  id : String
  mileage : Int
  state : String
  circulationDate : Int
  fuelType : String
  power : Int
  transmission : String
  carBody : String
  gearBox : String
  color : String
  doors : Int
  seats : Int
  startDate : Int
  endDate : Int
  startPrice : Int
  maxPrice : Int
  reservePrice : Int
  currentBid : Int
  bidIncrement : Int
  currentBidderId : Option String
  biddersCount : Int
  winnerId : Option String
  onlyForMerchants : Bool
  status : String
  carId : String
  createdAt : Int
  updatedAt : Int
  deriving Repr, DecidableEq

/-- Embeds `types.Bid` (pkg/types): one bid row. -/
structure Bid where
  id : String
  auctionId : String
  userId : String
  price : Int
  createdAt : Int
  updatedAt : Int
  deriving Repr, DecidableEq

/-- Embeds `types.User` (pkg/types). -/
structure User where
  id : String
  name : String
  email : String
  password : String
  role : String
  deriving Repr, DecidableEq

/-- The relational store seen by the adapter: the `Auctions` and `Bid`
tables. -/
structure DB where
  auctions : List Auction
  bids : List Bid
  deriving Repr, DecidableEq

/-- Embeds `service.GetAuctionById` (store adapter):
`SELECT ... FROM "Auctions" WHERE "id" = $1`; `none` is the
no-row error. -/
def GetAuctionById (db : DB) (auctionID : String) : Option Auction :=
  db.auctions.find? (fun a => a.id == auctionID)

/-- Embeds `service.UpdateAuctionById` (store adapter):
`UPDATE "Auctions" SET "currentBid" = $1, "currentBidderId" = $2,
"biddersCount" = $3 WHERE "id" = $4 RETURNING ...` called with the
arguments `(auction.CurrentBid, auction.CurrentBidderID,
auction.BiddersCount+1, auction.ID)`.  Note: the stored row keeps every
column not in the SET list (in particular `status` and `winnerId`), and
the stored `biddersCount` is the caller's value **plus one** (the `+1`
in the Go argument list).  The returned auction is the updated stored
row (RETURNING). -/
def UpdateAuctionById (db : DB) (auction : Auction) : Option (DB × Auction) :=
  match db.auctions.find? (fun r => r.id == auction.id) with
  | none => none
  | some row =>
    let row' := { row with currentBid := auction.currentBid,
                           currentBidderId := auction.currentBidderId,
                           biddersCount := auction.biddersCount + 1 }
    some ({ db with auctions :=
              db.auctions.map (fun r => if r.id == auction.id then row' else r) },
          row')

/-- Embeds `service.CreateBid` (store adapter).  The Go parameter is
unnamed (`func (s *service) CreateBid(types.Bid)`) and the body declares
a fresh zero-valued `var bid types.Bid`, so the inserted row carries the
zero values `auctionId = ""`, `userId = ""`, `price = 0`; the generated
id and timestamps are modelled as `""`/`0`.  The insert is modelled as
succeeding. -/
def CreateBid (db : DB) (_bid : Bid) : DB × Bid :=
  let inserted : Bid := { id := "", auctionId := "", userId := "", price := 0,
                          createdAt := 0, updatedAt := 0 }
  ({ db with bids := db.bids ++ [inserted] }, inserted)

/-- Embeds `service.GetCurrentAuctions` (store adapter):
`SELECT ... FROM "Auctions" ORDER BY "startDate" ASC LIMIT 1` — it
returns at most ONE row, the stored auction with the smallest
`startDate` (first stored wins ties), with no filter on `status` or
`endDate`. -/
def GetCurrentAuctions (db : DB) : List Auction :=
  match db.auctions.foldl
      (fun acc a =>
        match acc with
        | none => some a
        | some b => if a.startDate < b.startDate then some a else some b)
      none with
  | none => []
  | some a => [a]

/-- Embeds `errors.ErrInvalidToken` (pkg/errors). -/
def ErrInvalidToken : Int := 1001

/-- Embeds `errors.ErrAuctionNotFound` (pkg/errors). -/
def ErrAuctionNotFound : Int := 1002

/-- Embeds `errors.ErrBidTooLow` (pkg/errors). -/
def ErrBidTooLow : Int := 1003

/-- Embeds `errors.ErrAuctionClosed` (pkg/errors). -/
def ErrAuctionClosed : Int := 1004

/-- Embeds `errors.ErrWebSocketUpgrade` (pkg/errors). -/
def ErrWebSocketUpgrade : Int := 1005

/-- Embeds `errors.ErrInternalServer` (pkg/errors). -/
def ErrInternalServer : Int := 500

/-- Modelled from the spec: the constant `errors.ErrBadMessageFormat` is
referenced by the message router but its declaration is missing from
src/; the spec's error table assigns bad-message-format the code 1000. -/
def ErrBadMessageFormat : Int := 1000

/-- Modelled from the spec: the constant `errors.ErrUnknownMessageType`
is referenced by the message router but its declaration is missing from
src/; the spec's error table assigns unknown-message-type the code 1001. -/
def ErrUnknownMessageType : Int := 1001

/-- A websocket text frame sent by the server.
* `errorFrame code message` stands for the serialization of
  `errors.New(code, message).ToJSON()`.  `AppError.ToJSON` itself is
  missing from src/ (only `errors.New` and the constants are there);
  modelled from the spec, its shape is
  `{"type":"error","code":<int>,"message":"<string>"}`.
* `literal s` is a raw string literal sent verbatim by the Go code.
* `msgFrame t d` is `json.Marshal(&Message{Type: t, Data: d})`. -/
inductive Frame where
  | errorFrame (code : Int) (message : String)
  | literal (s : String)
  | msgFrame (ty : String) (data : String)
  deriving Repr, DecidableEq

/-- The exact string the hub sends on auction end:
`{"type": "auction_end", "data": "Auction has ended"}`. -/
def auctionEndText : String :=
  "\x7b\"type\": \"auction_end\", \"data\": \"Auction has ended\"\x7d"

/-- The exact string sent on a rate-limit refusal:
`{"type": "error", "message": "Rate limit exceeded"}` — a literal with
no `code` field. -/
def rateLimitExceededText : String :=
  "\x7b\"type\": \"error\", \"message\": \"Rate limit exceeded\"\x7d"

/-- Embeds `golang.org/x/time/rate.Limiter` as used by the repository:
a token bucket with `limit` tokens/second refill and `burst` capacity.
Time is in whole seconds and token counts are integers — exact for the
integer parameters `rate.NewLimiter(1, 3)` this repository uses. -/
structure RateLimiter where
  limit : Int
  burst : Int
  tokens : Int
  lastTime : Int
  deriving Repr, DecidableEq

/-- `rate.NewLimiter(r, b)`: the bucket starts full. -/
def rateNewLimiter (r b : Int) : RateLimiter :=
  { limit := r, burst := b, tokens := b, lastTime := 0 }

/-- `Limiter.Allow()` at instant `now`: advance the bucket (refill at
`limit` tokens/second, capped at `burst` by an explicit comparison, as
in x/time/rate), then consume one token if available. -/
def rateAllow (rl : RateLimiter) (now : Int) : Bool × RateLimiter :=
  let t0 := rl.tokens + (now - rl.lastTime) * rl.limit
  let tokens := if rl.burst < t0 then rl.burst else t0
  if 1 ≤ tokens then
    (true, { rl with tokens := tokens - 1, lastTime := now })
  else
    (false, { rl with tokens := tokens, lastTime := now })

/-- Embeds the `Client` connection state (websocket package): identity,
the auctions it has bid on, its per-connection rate limiter and the
`closed` teardown flag.  The `Send` channel itself is modelled by the
frame lists the handlers emit. -/
structure Client where
  id : String
  email : String
  auctions : List String
  rateLimiter : RateLimiter
  closed : Bool
  deriving Repr, DecidableEq

/-- Embeds the client construction in `upgradeToWebSocket`:
`&Client{ID: user.ID, Email: user.Email, Send: make(chan []byte),
RateLimiter: rate.NewLimiter(1, 3)}`. -/
def newClient (user : User) : Client :=
  { id := user.id, email := user.email, auctions := [],
    rateLimiter := rateNewLimiter 1 3, closed := false }

/-- Capacity of the `Send` channel created in `upgradeToWebSocket`:
`make(chan []byte)` is unbuffered, i.e. capacity 0. -/
def clientSendCapacity : Nat := 0

/-- A JSON value, the model of bytes that parsed as JSON. -/
inductive JValue where
  | jnull
  | jbool (b : Bool)
  | jnum (n : Int)
  | jstr (s : String)
  | jarr (xs : List JValue)
  | jobj (fields : List (String × JValue))

/-- Go's object-key resolution: unknown keys are ignored and a later
duplicate key overwrites an earlier one, so the last binding wins. -/
def lookupField (fields : List (String × JValue)) (key : String) : Option JValue :=
  fields.foldl (fun acc kv => if kv.1 == key then some kv.2 else acc) none

/-- Go `encoding/json` decoding of one `string`-typed struct field:
absent key or JSON `null` leaves the zero value `""`; a JSON string is
taken verbatim; any other JSON type is an `UnmarshalTypeError`. -/
def goStringField (fields : List (String × JValue)) (key : String) : Option String :=
  match lookupField fields key with
  | none => some ""
  | some (JValue.jstr s) => some s
  | some JValue.jnull => some ""
  | some _ => none

/-- Go `encoding/json` decoding of one `int`-typed struct field,
analogously. -/
def goIntField (fields : List (String × JValue)) (key : String) : Option Int :=
  match lookupField fields key with
  | none => some 0
  | some (JValue.jnum n) => some n
  | some JValue.jnull => some 0
  | some _ => none

/-- Embeds the `Message` envelope (websocket package):
`{Type string; Data string}` with JSON tags `type` and `data`. -/
structure Message where
  type : String
  data : String
  deriving Repr, DecidableEq

/-- `json.Unmarshal` of raw bytes into `Message`: a top-level JSON
`null` is a no-op (zero Message), an object decodes its `type` and
`data` fields, anything else is an error. -/
def unmarshalMessage : JValue → Option Message
  | JValue.jnull => some { type := "", data := "" }
  | JValue.jobj fields => do
      let t ← goStringField fields "type"
      let d ← goStringField fields "data"
      pure { type := t, data := d }
  | _ => none

/-- Embeds `ParseMessage` (websocket package): `json.Unmarshal` of the
raw bytes; `none` (invalid JSON) or a failing struct decode is the
error branch. -/
def ParseMessage (rawMessage : Option JValue) : Option Message :=
  rawMessage.bind unmarshalMessage

/-- Embeds the inner `BidMessage` payload of `handleBidMessage`:
`{AuctionID string `json:"auction_id"`; Amount int `json:"amount"`}`. -/
structure BidMessage where
  auctionId : String
  amount : Int
  deriving Repr, DecidableEq

/-- `json.Unmarshal` of a bid payload value into `BidMessage`. -/
def unmarshalBidMessage : JValue → Option BidMessage
  | JValue.jnull => some { auctionId := "", amount := 0 }
  | JValue.jobj fields => do
      let a ← goStringField fields "auction_id"
      let n ← goIntField fields "amount"
      pure { auctionId := a, amount := n }
  | _ => none

/-- Everything `handleBidMessage` does, observationally: the store
after the call, the frames sent on the bidding client's own `Send`
channel, the frames broadcast to all clients, and the client's updated
`Auctions` list. -/
structure BidEffects where
  db : DB
  toSender : List Frame
  broadcast : List Frame
  clientAuctions : List String
  deriving Repr, DecidableEq

/-- Embeds `handleBidMessage` (websocket message handler) from the
point where the payload has been unmarshalled into `bidMsg` (the
preceding `json.Unmarshal` failure branch sends a bad-format frame and
returns; it is `handleBidMessageBadPayload` below).  Faithful to the
source: a missing auction only logs and returns; the single validity
check is `bidMsg.Amount <= auction.CurrentBid`; on acceptance the row
is updated, a bid row inserted, the returned bid's `AuctionID` appended
to `client.Auctions`, and the original `data` string re-broadcast as a
`bid` frame.  There is no status, endDate or bidIncrement check. -/
def handleBidMessage (db : DB) (clientId : String) (clientAuctions : List String)
    (data : String) (bidMsg : BidMessage) : BidEffects :=
  match GetAuctionById db bidMsg.auctionId with
  | none => { db := db, toSender := [], broadcast := [], clientAuctions := clientAuctions }
  | some auction =>
    if bidMsg.amount ≤ auction.currentBid then
      { db := db,
        toSender := [Frame.errorFrame ErrBidTooLow
                      "Bid amount must be higher than current price"],
        broadcast := [], clientAuctions := clientAuctions }
    else
      let updated := { auction with currentBid := bidMsg.amount,
                                    currentBidderId := some clientId,
                                    biddersCount := auction.biddersCount + 1 }
      match UpdateAuctionById db updated with
      | none => { db := db, toSender := [], broadcast := [], clientAuctions := clientAuctions }
      | some (db1, auction1) =>
        let created := CreateBid db1
          { id := "", auctionId := auction1.id, userId := clientId,
            price := bidMsg.amount, createdAt := 0, updatedAt := 0 }
        { db := created.1,
          toSender := [],
          broadcast := [Frame.msgFrame "bid" data],
          clientAuctions := clientAuctions ++ [created.2.auctionId] }

/-- The `json.Unmarshal` failure branch of `handleBidMessage`. -/
def handleBidMessageBadPayload : List Frame :=
  [Frame.errorFrame ErrBadMessageFormat "Invalid bid message"]

/-- The routing outcome of `HandleMessage`: the client with its advanced
rate-limiter state, the frames sent to the sender, whether (and with
which `data` string) control was dispatched into `handleBidMessage`,
and whether the router tore the connection down (it never does). -/
structure RouteResult where
  client : Client
  toSender : List Frame
  bidDispatch : Option String
  disconnected : Bool
  deriving Repr, DecidableEq

/-- Embeds `HandleMessage` (websocket message router): rate-limit
admission first (`client.RateLimiter.Allow()`), then `ParseMessage`,
then the `switch` on `msg.Type` — `join` and `update` only log, `bid`
dispatches `handleBidMessage(client, msg.Data)` (recorded in
`bidDispatch`), anything else answers an unknown-message-type error
frame.  No branch closes the connection. -/
def HandleMessage (client : Client) (now : Int) (rawMessage : Option JValue) : RouteResult :=
  let ar := rateAllow client.rateLimiter now
  let c1 := { client with rateLimiter := ar.2 }
  if ar.1 = false then
    { client := c1, toSender := [Frame.literal rateLimitExceededText],
      bidDispatch := none, disconnected := false }
  else
    match ParseMessage rawMessage with
    | none =>
      { client := c1,
        toSender := [Frame.errorFrame ErrBadMessageFormat "Invalid message format"],
        bidDispatch := none, disconnected := false }
    | some msg =>
      if msg.type = "join" then
        { client := c1, toSender := [], bidDispatch := none, disconnected := false }
      else if msg.type = "bid" then
        { client := c1, toSender := [], bidDispatch := some msg.data, disconnected := false }
      else if msg.type = "update" then
        { client := c1, toSender := [], bidDispatch := none, disconnected := false }
      else
        { client := c1,
          toSender := [Frame.errorFrame ErrUnknownMessageType "Unknown message type"],
          bidDispatch := none, disconnected := false }

/-- Embeds `handleAuctionEnd` (websocket message handler): re-read the
row; if `currentBid < reservePrice` set `reserve_not_met` on the local
copy only (nothing is written back); otherwise set `sold` and `winnerId`
on the local copy and call `UpdateAuctionById` (whose SQL persists only
`currentBid`, `currentBidderId`, `biddersCount+1`); then broadcast the
constant `auction_end` string.  There is no terminal-status check. -/
def handleAuctionEnd (db : DB) (auctionID : String) : DB × List Frame :=
  match GetAuctionById db auctionID with
  | none => (db, [])
  | some auction =>
    if auction.currentBid < auction.reservePrice then
      (db, [Frame.literal auctionEndText])
    else
      let ended := { auction with status := "sold", winnerId := auction.currentBidderId }
      match UpdateAuctionById db ended with
      | none => (db, [])
      | some (db1, _) => (db1, [Frame.literal auctionEndText])

/-- Scheduler state for `CheckAuctionsStatus`: the store, the keys of
`activeJobs` (timer handles abstracted away), and the frames broadcast
during the sweep. -/
structure SchedState where
  db : DB
  activeJobs : List String
  broadcasts : List Frame
  deriving Repr, DecidableEq

/-- Embeds `CheckAuctionsStatus` (sweep tick body, run every minute by
gocron): list `GetCurrentAuctions()`; for each listed auction, skip if
a job is registered; if `endDate − now > 0` arm a one-shot timer and
register the job; otherwise, if the listed row's `winnerId` is nil,
settle inline via `handleAuctionEnd` (and do not register a job). -/
def CheckAuctionsStatus (now : Int) (st : SchedState) : SchedState :=
  (GetCurrentAuctions st.db).foldl
    (fun s a =>
      if s.activeJobs.contains a.id then s
      else if a.endDate - now > 0 then
        { s with activeJobs := s.activeJobs ++ [a.id] }
      else if a.winnerId = none then
        let r := handleAuctionEnd s.db a.id
        { s with db := r.1, broadcasts := s.broadcasts ++ r.2 }
      else s)
    st

/-- A hub-registered connection as `Broadcast` observes it: the
`closed` flag, whether a non-blocking send on its `Send` channel would
currently succeed, and the frames it has accepted. -/
structure HubClient where
  id : String
  closed : Bool
  canAccept : Bool
  inbox : List Frame
  deriving Repr, DecidableEq

/-- Embeds `Broadcast` (hub): range over the connected set; a `closed`
client is deleted from the set; otherwise try a non-blocking send
(`select`/`default`) — on success the frame lands in the client's
queue, on refusal `client.Disconnect(h)` removes the client.  Returns
the remaining set and the ids torn down as slow consumers. -/
def Broadcast (message : Frame) (clients : List HubClient) : List HubClient × List String :=
  clients.foldl
    (fun acc c =>
      if c.closed then acc
      else if c.canAccept then
        (acc.1 ++ [{ c with inbox := c.inbox ++ [message] }], acc.2)
      else
        (acc.1, acc.2 ++ [c.id]))
    ([], [])

/-- A convenient base auction row for concrete test stores: every field
zeroed, `status` active, increment 1. -/
def sampleAuction : Auction :=
  { id := "", mileage := 0, state := "", circulationDate := 0, fuelType := "",
    power := 0, transmission := "", carBody := "", gearBox := "", color := "",
    doors := 0, seats := 0, startDate := 0, endDate := 0, startPrice := 0,
    maxPrice := 0, reservePrice := 0, currentBid := 0, bidIncrement := 1,
    currentBidderId := none, biddersCount := 0, winnerId := none,
    onlyForMerchants := false, status := "active", carId := "", createdAt := 0,
    updatedAt := 0 }

/-- The stored row produced by `UpdateAuctionById db arg` when `row` is
the row found by the WHERE clause: the three SET columns replaced, with
`biddersCount` getting the extra `+1` of the Go argument list. -/
def setColumns (row arg : Auction) : Auction :=
  { row with currentBid := arg.currentBid,
             currentBidderId := arg.currentBidderId,
             biddersCount := arg.biddersCount + 1 }

/-- The store after `UpdateAuctionById` rewrote the row with id `aid`
to `row'`. -/
def storeAfterUpdate (db : DB) (aid : String) (row' : Auction) : DB :=
  { db with auctions := db.auctions.map (fun r => if r.id == aid then row' else r) }

/-- `List.find?` commutes with a map that does not change the value of
the predicate on any element. -/
theorem find?_map_pres {α : Type} (f : α → α) (p : α → Bool) (l : List α)
    (h : ∀ x, p (f x) = p x) :
    (l.map f).find? p = (l.find? p).map f := by
  rw [List.find?_map, show p ∘ f = p from funext h]

/-- When the target row is present, `UpdateAuctionById` succeeds and
produces exactly `setColumns row arg` in the store. -/
theorem UpdateAuctionById_found (db : DB) (arg row : Auction)
    (h : db.auctions.find? (fun r => r.id == arg.id) = some row) :
    UpdateAuctionById db arg =
      some (storeAfterUpdate db arg.id (setColumns row arg), setColumns row arg) := by
  unfold UpdateAuctionById storeAfterUpdate setColumns
  rw [h]

/-- The bid-too-low frame `errors.New(errors.ErrBidTooLow, "Bid amount
must be higher than current price").ToJSON()`. -/
def bidTooLowFrame : Frame :=
  Frame.errorFrame ErrBidTooLow "Bid amount must be higher than current price"

/-- The auction row stored after an accepted bid of `amount` by `cid`:
the handler's in-memory `BiddersCount++` plus the store adapter's
`BiddersCount+1` make the stored count grow by two. -/
def acceptedRow (a : Auction) (cid : String) (amount : Int) : Auction :=
  { a with currentBid := amount, currentBidderId := some cid,
           biddersCount := a.biddersCount + 1 + 1 }

/-- The zero-valued bid row that `CreateBid` actually inserts. -/
def zeroBid : Bid :=
  { id := "", auctionId := "", userId := "", price := 0, createdAt := 0, updatedAt := 0 }

/-- The whole store after an accepted bid. -/
def acceptedStore (db : DB) (a : Auction) (cid : String) (amount : Int) : DB :=
  let db1 := storeAfterUpdate db a.id (acceptedRow a cid amount)
  { db1 with bids := db1.bids ++ [zeroBid] }

/-- Reading back the row that an update-by-id just rewrote. -/
theorem GetAuctionById_after_update (db : DB) (aid : String) (row row' : Auction)
    (h : db.auctions.find? (fun r => r.id == aid) = some row)
    (h' : (row'.id == aid) = true) :
    GetAuctionById (storeAfterUpdate db aid row') aid = some row' := by
  have hrow : (row.id == aid) = true := by
    simpa using List.find?_some h
  unfold GetAuctionById storeAfterUpdate
  rw [find?_map_pres (fun r => if r.id == aid then row' else r)
        (fun r => r.id == aid) db.auctions
        (by
          intro x
          by_cases hx : (x.id == aid) = true
          · simp [hx, h']
          · simp only [Bool.not_eq_true] at hx
            simp [hx]),
      h, Option.map_some']
  simp [hrow]

/-- On an existing auction, a bid whose amount is at most the current
bid takes exactly the rejection branch: one bid-too-low frame to the
sender, store untouched, nothing broadcast. -/
theorem handleBidMessage_rejected (db : DB) (cid : String) (ca : List String)
    (data : String) (bm : BidMessage) (a : Auction)
    (h : GetAuctionById db bm.auctionId = some a)
    (hle : bm.amount ≤ a.currentBid) :
    handleBidMessage db cid ca data bm =
      { db := db, toSender := [bidTooLowFrame], broadcast := [], clientAuctions := ca } := by
  unfold handleBidMessage
  rw [h]
  dsimp only
  rw [if_pos hle]
  rfl

/-- On an existing auction, a bid whose amount exceeds the current bid
is accepted: the row is rewritten to `acceptedRow`, the zero-valued bid
row is inserted, nothing is sent to the sender, and the raw `data`
string is re-broadcast as a `bid` frame.  No status, endDate or
bidIncrement condition appears anywhere in this path. -/
theorem handleBidMessage_accepted (db : DB) (cid : String) (ca : List String)
    (data : String) (bm : BidMessage) (a : Auction)
    (h : GetAuctionById db bm.auctionId = some a)
    (hgt : a.currentBid < bm.amount) :
    handleBidMessage db cid ca data bm =
      { db := acceptedStore db a cid bm.amount,
        toSender := [],
        broadcast := [Frame.msgFrame "bid" data],
        clientAuctions := ca ++ [""] } := by
  have hfind : db.auctions.find? (fun r => r.id == bm.auctionId) = some a := by
    simpa [GetAuctionById] using h
  have hid : a.id = bm.auctionId := by
    have := List.find?_some hfind
    exact eq_of_beq (by simpa using this)
  have hfind' : db.auctions.find? (fun r => r.id == a.id) = some a := by
    rw [hid]; exact hfind
  unfold handleBidMessage
  rw [h]
  dsimp only
  rw [if_neg (by omega)]
  rw [UpdateAuctionById_found db
        { a with currentBid := bm.amount, currentBidderId := some cid,
                 biddersCount := a.biddersCount + 1 } a hfind']
  simp only [CreateBid, acceptedStore, acceptedRow, setColumns, storeAfterUpdate, zeroBid]

/-- Reading the accepted row back out of the accepted store. -/
theorem GetAuctionById_acceptedStore (db : DB) (a : Auction) (cid : String)
    (amount : Int)
    (h : db.auctions.find? (fun r => r.id == a.id) = some a) :
    GetAuctionById (acceptedStore db a cid amount) a.id =
      some (acceptedRow a cid amount) := by
  have := GetAuctionById_after_update db a.id a (acceptedRow a cid amount) h
    (by simp [acceptedRow])
  simpa [GetAuctionById, acceptedStore, storeAfterUpdate] using this


/-- From a successful `GetAuctionById` read, the underlying row lookup
keyed by the row's own id, and the fact that the row's id is the key. -/
theorem GetAuctionById_self_find (db : DB) (aid : String) (a : Auction)
    (h : GetAuctionById db aid = some a) :
    db.auctions.find? (fun r => r.id == a.id) = some a ∧ a.id = aid := by
  have hfind : db.auctions.find? (fun r => r.id == aid) = some a := by
    simpa [GetAuctionById] using h
  have hid : a.id = aid := eq_of_beq (by simpa using List.find?_some hfind)
  exact ⟨by rw [hid]; exact hfind, hid⟩

/-- `handleBidMessage` only ever sends nothing or the single
bid-too-low frame to the sender. -/
theorem handleBidMessage_toSender_sub (db : DB) (cid : String) (ca : List String)
    (data : String) (bm : BidMessage) :
    (handleBidMessage db cid ca data bm).toSender = [] ∨
    (handleBidMessage db cid ca data bm).toSender = [bidTooLowFrame] := by
  cases hga : GetAuctionById db bm.auctionId with
  | none =>
    left
    unfold handleBidMessage
    rw [hga]
  | some au =>
    by_cases hle : bm.amount ≤ au.currentBid
    · right
      rw [handleBidMessage_rejected db cid ca data bm au hga hle]
    · left
      rw [handleBidMessage_accepted db cid ca data bm au hga (by omega)]

/-- The auction row used by the C1 scenario: `currentBid = 100`,
`bidIncrement = 10`, active and unexpired. -/
def aC1 : Auction :=
  { sampleAuction with id := "A1", currentBid := 100, bidIncrement := 10,
                       endDate := 1000000 }

/-- The store used by the C1 scenario. -/
def dbC1 : DB := { auctions := [aC1], bids := [] }

/-- Claim C1 (counterexample).  Auction `A1` has `currentBid = 100` and
`bidIncrement = 10`, is `active` and unexpired; client `U1` bids 105.
The claim says the bid must be rejected with bid-too-low because
`105 − 100 = 5 < 10 = bidIncrement`; the code accepts it: nothing is
sent to the sender and the stored `currentBid` becomes 105. -/
theorem C1_counterexample :
    (handleBidMessage dbC1 "U1" [] "d" { auctionId := "A1", amount := 105 }).toSender = [] ∧
    ((handleBidMessage dbC1 "U1" [] "d"
        { auctionId := "A1", amount := 105 }).db.auctions.map Auction.currentBid) = [105] := by
  decide

/-- Claim C1 (amended): for every inbound bid message on an existing
auction, the bid is rejected with a bid-too-low error iff
`amount ≤ currentBid` — the `bidIncrement` condition is not checked —
and consequently every accepted bid satisfies only
`amount > currentBid_before`. -/
theorem C1_amended (db : DB) (cid : String) (ca : List String) (data : String)
    (bm : BidMessage) (a : Auction)
    (h : GetAuctionById db bm.auctionId = some a) :
    ((handleBidMessage db cid ca data bm).toSender = [bidTooLowFrame] ∧
     (handleBidMessage db cid ca data bm).db = db ∧
     (handleBidMessage db cid ca data bm).broadcast = []
       ↔ bm.amount ≤ a.currentBid) ∧
    (a.currentBid < bm.amount → (handleBidMessage db cid ca data bm).toSender = []) := by
  by_cases hle : bm.amount ≤ a.currentBid
  · rw [handleBidMessage_rejected db cid ca data bm a h hle]
    refine ⟨by simp [hle], fun hgt => absurd hgt (not_lt.mpr hle)⟩
  · have hgt : a.currentBid < bm.amount := by omega
    rw [handleBidMessage_accepted db cid ca data bm a h hgt]
    refine ⟨by simp [hle, bidTooLowFrame], fun _ => rfl⟩

/-- Witness for C1: the amended equivalence applied to auction `aC1`
(`currentBid = 100`) and a bid of exactly 100, which is rejected. -/
theorem C1_witness :
    ((handleBidMessage dbC1 "U1" [] "d" { auctionId := "A1", amount := 100 }).toSender = [bidTooLowFrame] ∧
     (handleBidMessage dbC1 "U1" [] "d" { auctionId := "A1", amount := 100 }).db = dbC1 ∧
     (handleBidMessage dbC1 "U1" [] "d" { auctionId := "A1", amount := 100 }).broadcast = []
       ↔ (100 : Int) ≤ aC1.currentBid) ∧
    (aC1.currentBid < 100 →
      (handleBidMessage dbC1 "U1" [] "d" { auctionId := "A1", amount := 100 }).toSender = []) := by
  exact C1_amended dbC1 "U1" [] "d" { auctionId := "A1", amount := 100 } aC1 (by decide)

/-- The auction row used by the C2 scenario: `currentBid = 100`,
`biddersCount = 0`, active. -/
def aC2 : Auction :=
  { sampleAuction with id := "A1", currentBid := 100, endDate := 1000000 }

/-- The store used by the C2 scenario. -/
def dbC2 : DB := { auctions := [aC2], bids := [] }

/-- Claim C2 (code bug, evaluated at the failing input).  Auction `A1`
has `biddersCount = 0`; client `U1`'s bid of 110 is accepted.  The
stored row does get `currentBid = 110` and `currentBidderId = U1`, but
its `biddersCount` becomes 2, not 1: `handleBidMessage` increments the
in-memory copy once and `UpdateAuctionById` passes
`auction.BiddersCount+1` to the SQL, incrementing again. -/
theorem C2_code_bug_eval :
    ((handleBidMessage dbC2 "U1" [] "d" { auctionId := "A1", amount := 110 }).db.auctions.map
        (fun r => (r.currentBid, r.currentBidderId, r.biddersCount))) =
      [(110, some "U1", 2)] := by
  decide

/-- The auction row used by the C3 scenario: already `sold` and past
its `endDate`, with `currentBid = 100`. -/
def aC3 : Auction :=
  { sampleAuction with id := "A1", status := "sold", endDate := 0, currentBid := 100 }

/-- The store used by the C3 scenario. -/
def dbC3 : DB := { auctions := [aC3], bids := [] }

/-- Claim C3 (counterexample).  Auction `A1` is `sold` (status ≠
active) and its `endDate` is in the past, yet a bid of 110 > 100 is
accepted: no auction-closed error frame is sent (nothing is sent at
all), the stored row is changed to `currentBid = 110`, and the bid is
broadcast — the claim says the bid is rejected and the row left
unchanged. -/
theorem C3_counterexample :
    (handleBidMessage dbC3 "U1" [] "d" { auctionId := "A1", amount := 110 }).toSender = [] ∧
    (handleBidMessage dbC3 "U1" [] "d" { auctionId := "A1", amount := 110 }).broadcast =
      [Frame.msgFrame "bid" "d"] ∧
    ((handleBidMessage dbC3 "U1" [] "d"
        { auctionId := "A1", amount := 110 }).db.auctions.map Auction.currentBid) = [110] := by
  decide

/-- Claim C3 (amended): the bid pipeline performs no `status` or
`endDate` check at all.  On any existing auction — whatever its status
or endDate — a bid exceeding `currentBid` is accepted: nothing is sent
to the sender, the row is rewritten (keeping its status), the bid row
is inserted and the bid is broadcast; moreover no execution of
`handleBidMessage` ever sends an auction-closed error frame. -/
theorem C3_amended (db : DB) (cid : String) (ca : List String) (data : String)
    (bm : BidMessage) (a : Auction)
    (h : GetAuctionById db bm.auctionId = some a)
    (hgt : a.currentBid < bm.amount) :
    (handleBidMessage db cid ca data bm).toSender = [] ∧
    (handleBidMessage db cid ca data bm).broadcast = [Frame.msgFrame "bid" data] ∧
    GetAuctionById (handleBidMessage db cid ca data bm).db a.id =
      some (acceptedRow a cid bm.amount) ∧
    (acceptedRow a cid bm.amount).status = a.status ∧
    (∀ (db' : DB) (cid' : String) (ca' : List String) (data' : String)
       (bm' : BidMessage) (m : String),
       Frame.errorFrame ErrAuctionClosed m ∉
         (handleBidMessage db' cid' ca' data' bm').toSender) := by
  have hfind := (GetAuctionById_self_find db bm.auctionId a h).1
  rw [handleBidMessage_accepted db cid ca data bm a h hgt]
  refine ⟨rfl, rfl, GetAuctionById_acceptedStore db a cid bm.amount hfind, rfl, ?_⟩
  intro db' cid' ca' data' bm' m
  rcases handleBidMessage_toSender_sub db' cid' ca' data' bm' with hs | hs <;> rw [hs]
  · simp
  · simp [bidTooLowFrame, ErrAuctionClosed, ErrBidTooLow]

/-- Witness for C3: the amended statement applied to the sold, expired
auction `aC3` and an accepted bid of 110. -/
theorem C3_witness :
    (handleBidMessage dbC3 "U1" [] "d" { auctionId := "A1", amount := 110 }).toSender = [] ∧
    (handleBidMessage dbC3 "U1" [] "d" { auctionId := "A1", amount := 110 }).broadcast =
      [Frame.msgFrame "bid" "d"] ∧
    GetAuctionById (handleBidMessage dbC3 "U1" [] "d"
        { auctionId := "A1", amount := 110 }).db aC3.id =
      some (acceptedRow aC3 "U1" 110) ∧
    (acceptedRow aC3 "U1" 110).status = aC3.status ∧
    (∀ (db' : DB) (cid' : String) (ca' : List String) (data' : String)
       (bm' : BidMessage) (m : String),
       Frame.errorFrame ErrAuctionClosed m ∉
         (handleBidMessage db' cid' ca' data' bm').toSender) := by
  exact C3_amended dbC3 "U1" [] "d" { auctionId := "A1", amount := 110 } aC3
    (by decide) (by decide)

/-- The row actually stored when settlement takes the reserve-met
branch: `UpdateAuctionById` persists neither `status` nor `winnerId`
(they are not in its SET list), and bumps `biddersCount` by one. -/
def settledRow (a : Auction) : Auction :=
  { a with biddersCount := a.biddersCount + 1 }

/-- Settlement on an existing row below reserve: the local copy gets
`reserve_not_met` but nothing is written back — the store is returned
unchanged — and the constant `auction_end` string is broadcast. -/
theorem handleAuctionEnd_reserve_not_met (db : DB) (auctionID : String) (a : Auction)
    (h : GetAuctionById db auctionID = some a)
    (hlt : a.currentBid < a.reservePrice) :
    handleAuctionEnd db auctionID = (db, [Frame.literal auctionEndText]) := by
  unfold handleAuctionEnd
  rw [h]
  dsimp only
  rw [if_pos hlt]

/-- Settlement on an existing row meeting reserve: `UpdateAuctionById`
is called with the sold local copy, but stores only the bid columns —
the stored row is `settledRow a` — and the constant `auction_end`
string is broadcast. -/
theorem handleAuctionEnd_sold (db : DB) (auctionID : String) (a : Auction)
    (h : GetAuctionById db auctionID = some a)
    (hge : a.reservePrice ≤ a.currentBid) :
    handleAuctionEnd db auctionID =
      (storeAfterUpdate db a.id (settledRow a), [Frame.literal auctionEndText]) := by
  have hfind := (GetAuctionById_self_find db auctionID a h).1
  unfold handleAuctionEnd
  rw [h]
  dsimp only
  rw [if_neg (not_lt.mpr hge)]
  rw [UpdateAuctionById_found db
        { a with status := "sold", winnerId := a.currentBidderId } a hfind]
  simp only [storeAfterUpdate, setColumns, settledRow]

/-- The auction row used by the C4 scenario: reserve 500, highest bid
300, still `active`. -/
def aC4 : Auction :=
  { sampleAuction with id := "A3", reservePrice := 500, currentBid := 300 }

/-- The store used by the C4 scenario. -/
def dbC4 : DB := { auctions := [aC4], bids := [] }

/-- The auction row used by the C4 witness: reserve 200 met by bid 250
from `U3`. -/
def aC4b : Auction :=
  { sampleAuction with id := "A2", reservePrice := 200, currentBid := 250,
                       currentBidderId := some "U3" }

/-- The store used by the C4 witness. -/
def dbC4b : DB := { auctions := [aC4b], bids := [] }

/-- Claim C4 (counterexample).  Auction `A3` settles with
`currentBid = 300 < 500 = reservePrice`.  The claim says the new status
`reserve_not_met` is persisted and an `auction_end` frame carrying
`auction_id`, `status`, `winner_id` and `final_price` is broadcast; the
code leaves the store completely unchanged (stored status stays
`active`) and broadcasts only the field-free constant string
`{"type": "auction_end", "data": "Auction has ended"}`. -/
theorem C4_counterexample :
    handleAuctionEnd dbC4 "A3" = (dbC4, [Frame.literal auctionEndText]) ∧
    ((handleAuctionEnd dbC4 "A3").1.auctions.map Auction.status) = ["active"] := by
  decide

/-- Claim C4 (amended): on settlement of an existing auction, if
`currentBid < reservePrice` the status is set only on the discarded
local copy — the store is unchanged; otherwise `UpdateAuctionById` is
called but persists only the bid columns, so the stored row keeps its
old `status` and `winnerId` and gains an extra `biddersCount + 1`; in
both branches the broadcast is the constant `auction_end` string with
no `auction_id`, `status`, `winner_id` or `final_price` fields. -/
theorem C4_amended (db : DB) (auctionID : String) (a : Auction)
    (h : GetAuctionById db auctionID = some a) :
    (a.currentBid < a.reservePrice →
      handleAuctionEnd db auctionID = (db, [Frame.literal auctionEndText])) ∧
    (a.reservePrice ≤ a.currentBid →
      (handleAuctionEnd db auctionID).2 = [Frame.literal auctionEndText] ∧
      GetAuctionById (handleAuctionEnd db auctionID).1 a.id = some (settledRow a) ∧
      (settledRow a).status = a.status ∧
      (settledRow a).winnerId = a.winnerId ∧
      (settledRow a).biddersCount = a.biddersCount + 1) := by
  have hfind := (GetAuctionById_self_find db auctionID a h).1
  constructor
  · intro hlt
    exact handleAuctionEnd_reserve_not_met db auctionID a h hlt
  · intro hge
    rw [handleAuctionEnd_sold db auctionID a h hge]
    refine ⟨rfl, ?_, rfl, rfl, rfl⟩
    exact GetAuctionById_after_update db a.id a (settledRow a) hfind
      (by simp [settledRow])

/-- Witness for C4: the amended statement applied to auction `A2`
(reserve 200 met by bid 250). -/
theorem C4_witness :
    (aC4b.currentBid < aC4b.reservePrice →
      handleAuctionEnd dbC4b "A2" = (dbC4b, [Frame.literal auctionEndText])) ∧
    (aC4b.reservePrice ≤ aC4b.currentBid →
      (handleAuctionEnd dbC4b "A2").2 = [Frame.literal auctionEndText] ∧
      GetAuctionById (handleAuctionEnd dbC4b "A2").1 aC4b.id = some (settledRow aC4b) ∧
      (settledRow aC4b).status = aC4b.status ∧
      (settledRow aC4b).winnerId = aC4b.winnerId ∧
      (settledRow aC4b).biddersCount = aC4b.biddersCount + 1) := by
  exact C4_amended dbC4b "A2" aC4b (by decide)

/-- The auction row used by the C5 scenario: already terminal
(`status = sold`, winner recorded), reserve met. -/
def aC5 : Auction :=
  { sampleAuction with id := "A2", status := "sold", reservePrice := 200,
                       currentBid := 250, currentBidderId := some "U3",
                       winnerId := some "U3" }

/-- The store used by the C5 scenario. -/
def dbC5 : DB := { auctions := [aC5], bids := [] }

/-- An overdue active auction below reserve whose settlement persists
nothing, so every sweep re-settles it. -/
def aC5s : Auction :=
  { sampleAuction with id := "A4", reservePrice := 500, currentBid := 300,
                       endDate := 0 }

/-- Scheduler state holding only `aC5s`, no registered jobs. -/
def schedC5 : SchedState :=
  { db := { auctions := [aC5s], bids := [] }, activeJobs := [], broadcasts := [] }

/-- Claim C5 (counterexample).  Auction `A2` is already in the terminal
status `sold` with its winner recorded; the claim says settlement
re-reads the row and returns silently without broadcasting.  The code
has no terminal-status check: settling `A2` broadcasts an `auction_end`
frame, and settling it a second time broadcasts another one — a
duplicate broadcast for the same auction. -/
theorem C5_counterexample :
    (handleAuctionEnd dbC5 "A2").2 = [Frame.literal auctionEndText] ∧
    (handleAuctionEnd (handleAuctionEnd dbC5 "A2").1 "A2").2 =
      [Frame.literal auctionEndText] := by
  decide

/-- Claim C5 (amended): settlement performs no terminal-status check —
whenever the row exists it broadcasts an `auction_end` frame, terminal
status or not; and since settlement persists neither `status` nor
`winnerId`, two consecutive sweep ticks over an overdue below-reserve
auction each settle it again, producing duplicate broadcasts. -/
theorem C5_amended :
    (∀ (db : DB) (auctionID : String) (a : Auction),
       GetAuctionById db auctionID = some a →
       (handleAuctionEnd db auctionID).2 = [Frame.literal auctionEndText]) ∧
    (CheckAuctionsStatus 100 (CheckAuctionsStatus 100 schedC5)).broadcasts =
      [Frame.literal auctionEndText, Frame.literal auctionEndText] := by
  constructor
  · intro db auctionID a h
    by_cases hlt : a.currentBid < a.reservePrice
    · rw [handleAuctionEnd_reserve_not_met db auctionID a h hlt]
    · rw [handleAuctionEnd_sold db auctionID a h (by omega)]
  · decide

/-- Witness for C5: the amended statement's universal part applied to
the already-sold auction `A2`, which still broadcasts. -/
theorem C5_witness :
    (handleAuctionEnd dbC5 "A2").2 = [Frame.literal auctionEndText] ∧
    GetAuctionById dbC5 "A2" = some aC5 := by
  exact ⟨C5_amended.1 dbC5 "A2" aC5 (by decide), by decide⟩

/-- Two live active auctions with future end dates; only the one with
the earlier `startDate` is ever listed by the sweep. -/
def aC6a : Auction :=
  { sampleAuction with id := "A", startDate := 1, endDate := 1000000 }

/-- The second live active auction, omitted by the listing. -/
def aC6b : Auction :=
  { sampleAuction with id := "B", startDate := 2, endDate := 1000000 }

/-- The store used by the C6 scenario. -/
def dbC6 : DB := { auctions := [aC6a, aC6b], bids := [] }

/-- Claim C6 (code bug, evaluated at the failing input).  With two
active, unexpired auctions in the store, the sweep's listing returns
only `[aC6a]` — auction `B` is omitted and never gets a job — because
`GetCurrentAuctions` runs `ORDER BY "startDate" ASC LIMIT 1` with no
status or endDate filter; in general the listing never exceeds one
row. -/
theorem C6_code_bug_eval :
    GetCurrentAuctions dbC6 = [aC6a] ∧
    (∀ db : DB, (GetCurrentAuctions db).length ≤ 1) := by
  constructor
  · decide
  · intro db
    unfold GetCurrentAuctions
    cases hf : db.auctions.foldl
        (fun acc a =>
          match acc with
          | none => some a
          | some b => if a.startDate < b.startDate then some a else some b)
        none with
    | none => simp
    | some x => simp

/-- Unrolling the hub's `Range` loop: the surviving set and the
torn-down ids are pointwise functions of each client alone. -/
theorem Broadcast_foldl (message : Frame) (cs : List HubClient)
    (acc : List HubClient × List String) :
    cs.foldl
      (fun acc c =>
        if c.closed then acc
        else if c.canAccept then
          (acc.1 ++ [{ c with inbox := c.inbox ++ [message] }], acc.2)
        else
          (acc.1, acc.2 ++ [c.id]))
      acc =
    (acc.1 ++ cs.filterMap (fun c =>
        if c.closed then none
        else if c.canAccept then some { c with inbox := c.inbox ++ [message] }
        else none),
     acc.2 ++ cs.filterMap (fun c =>
        if c.closed ∨ c.canAccept then none else some c.id)) := by
  induction cs generalizing acc with
  | nil => simp
  | cons c t ih =>
    by_cases hc : c.closed
    · simp [hc, ih]
    · by_cases ha : c.canAccept
      · simp [hc, ha, ih]
      · simp [hc, ha, ih]

/-- Claim C7 (amended): the outbound queue created by
`upgradeToWebSocket` is unbuffered (capacity 0, not 32); `Broadcast`
enqueues non-blockingly and treats each client independently: a closed
client is dropped, a live client that can accept receives exactly the
frame appended to its inbox and stays registered, and a live client
that cannot accept is torn down — the outcome for every other client
is unaffected, being a pointwise function of that client alone. -/
theorem C7_amended :
    clientSendCapacity = 0 ∧
    ∀ (message : Frame) (clients : List HubClient),
      Broadcast message clients =
        (clients.filterMap (fun c =>
            if c.closed then none
            else if c.canAccept then some { c with inbox := c.inbox ++ [message] }
            else none),
         clients.filterMap (fun c =>
            if c.closed ∨ c.canAccept then none else some c.id)) := by
  refine ⟨rfl, ?_⟩
  intro message clients
  unfold Broadcast
  simpa using Broadcast_foldl message clients ([], [])

/-- Claim C7 (counterexample): the `Send` channel is created by
`make(chan []byte)`, whose capacity is 0 — not 32 as claimed. -/
theorem C7_counterexample : clientSendCapacity = 0 ∧ clientSendCapacity ≠ 32 := by
  decide

/-- The rate-limit refusal path of `HandleMessage`: the limiter state
advances, exactly the code-less literal error frame is sent, nothing is
parsed or dispatched, and the connection stays open — independently of
the raw message. -/
theorem HandleMessage_refused (c : Client) (now : Int) (raw : Option JValue)
    (h : (rateAllow c.rateLimiter now).1 = false) :
    HandleMessage c now raw =
      { client := { c with rateLimiter := (rateAllow c.rateLimiter now).2 },
        toSender := [Frame.literal rateLimitExceededText],
        bidDispatch := none, disconnected := false } := by
  unfold HandleMessage
  rw [if_pos h]

/-- Claim C8 (confirmed): every client is built with
`rate.NewLimiter(1, 3)` — refill 1 token/second, burst 3; the limiter
is consulted before any parsing, so on refusal the result is the same
for every raw message: one error frame to the client, the message
dropped with no dispatch into the bid pipeline (hence no state
change), and no disconnect — indeed no path of `HandleMessage` ever
disconnects or flips the client's `closed` flag, so any number of
refusals keeps the connection open. -/
theorem C8_rate_limit :
    (∀ u : User, (newClient u).rateLimiter = rateNewLimiter 1 3) ∧
    (∀ (c : Client) (now : Int) (raw : Option JValue),
       (rateAllow c.rateLimiter now).1 = false →
       HandleMessage c now raw =
         { client := { c with rateLimiter := (rateAllow c.rateLimiter now).2 },
           toSender := [Frame.literal rateLimitExceededText],
           bidDispatch := none, disconnected := false }) ∧
    (∀ (c : Client) (now : Int) (raw raw' : Option JValue),
       (rateAllow c.rateLimiter now).1 = false →
       HandleMessage c now raw = HandleMessage c now raw') ∧
    (∀ (c : Client) (now : Int) (raw : Option JValue),
       (HandleMessage c now raw).disconnected = false ∧
       (HandleMessage c now raw).client.closed = c.closed) := by
  refine ⟨fun u => rfl, ?_, ?_, ?_⟩
  · intro c now raw h
    exact HandleMessage_refused c now raw h
  · intro c now raw raw' h
    rw [HandleMessage_refused c now raw h, HandleMessage_refused c now raw' h]
  · intro c now raw
    simp only [HandleMessage]
    repeat' split
    all_goals exact ⟨rfl, rfl⟩

/-- The client used by the C8 witness: its bucket is empty, so the next
message is refused. -/
def clientC8 : Client :=
  { id := "U1", email := "e", auctions := [],
    rateLimiter := { limit := 1, burst := 3, tokens := 0, lastTime := 0 },
    closed := false }

/-- Witness for C8: an empty bucket refuses, and `HandleMessage`
sends exactly the rate-limit frame without dispatching or
disconnecting. -/
theorem C8_witness :
    (rateAllow clientC8.rateLimiter 0).1 = false ∧
    HandleMessage clientC8 0 none =
      { client := { clientC8 with rateLimiter := (rateAllow clientC8.rateLimiter 0).2 },
        toSender := [Frame.literal rateLimitExceededText],
        bidDispatch := none, disconnected := false } := by
  exact ⟨by decide, C8_rate_limit.2.1 clientC8 0 none (by decide)⟩

/-- Claim C9 (counterexample).  A too-low bid (50 against currentBid
100 on auction `A1`) is answered with the error frame built from
`errors.ErrBidTooLow`, whose numeric code is 1003 — not 1004 as the
claim states (1004 is `errors.ErrAuctionClosed`). -/
theorem C9_counterexample :
    (handleBidMessage dbC1 "U1" [] "d" { auctionId := "A1", amount := 50 }).toSender =
      [Frame.errorFrame 1003 "Bid amount must be higher than current price"] ∧
    ErrBidTooLow ≠ 1004 := by
  decide

/-- Claim C9 (amended): error frames produced through the errors
helper carry the shape `{"type":"error","code":<int>,"message":<string>}`
(the `Frame.errorFrame` constructor models that serialization), and the
bid-too-low frame carries numeric code `ErrBidTooLow = 1003`; the
rate-limit refusal frame, however, is a bare string literal with no
`code` field at all. -/
theorem C9_amended :
    (∀ (db : DB) (cid : String) (ca : List String) (data : String)
       (bm : BidMessage) (a : Auction),
       GetAuctionById db bm.auctionId = some a →
       bm.amount ≤ a.currentBid →
       (handleBidMessage db cid ca data bm).toSender =
         [Frame.errorFrame ErrBidTooLow "Bid amount must be higher than current price"]) ∧
    ErrBidTooLow = 1003 ∧
    (∀ (c : Client) (now : Int) (raw : Option JValue),
       (rateAllow c.rateLimiter now).1 = false →
       (HandleMessage c now raw).toSender = [Frame.literal rateLimitExceededText]) := by
  refine ⟨?_, rfl, ?_⟩
  · intro db cid ca data bm a h hle
    rw [handleBidMessage_rejected db cid ca data bm a h hle]
    rfl
  · intro c now raw h
    rw [HandleMessage_refused c now raw h]

/-- Witness for C9: the bid-too-low frame sent for a bid of 50 against
currentBid 100 carries code `ErrBidTooLow` (= 1003). -/
theorem C9_witness :
    GetAuctionById dbC1 "A1" = some aC1 ∧
    (handleBidMessage dbC1 "U1" [] "d" { auctionId := "A1", amount := 50 }).toSender =
      [Frame.errorFrame ErrBidTooLow "Bid amount must be higher than current price"] := by
  exact ⟨by decide,
    C9_amended.1 dbC1 "U1" [] "d" { auctionId := "A1", amount := 50 } aC1
      (by decide) (by decide)⟩

/-- Claim C10 (confirmed): Go's struct decoding makes `ParseMessage`
succeed on any JSON object even when `type`/`data` are absent (absent
fields default to `""`), so a frame like `{}` reaches the router's
default branch: the client gets an unknown-message-type error frame —
not a bad-message-format one — nothing is dispatched, and the
connection stays open. -/
theorem C10_empty_object (fields : List (String × JValue)) (d : String)
    (c : Client) (now : Int)
    (h1 : lookupField fields "type" = none)
    (h2 : goStringField fields "data" = some d)
    (h3 : (rateAllow c.rateLimiter now).1 = true) :
    ParseMessage (some (JValue.jobj fields)) = some { type := "", data := d } ∧
    HandleMessage c now (some (JValue.jobj fields)) =
      { client := { c with rateLimiter := (rateAllow c.rateLimiter now).2 },
        toSender := [Frame.errorFrame ErrUnknownMessageType "Unknown message type"],
        bidDispatch := none, disconnected := false } := by
  have ht : goStringField fields "type" = some "" := by
    simp [goStringField, h1]
  have hparse : ParseMessage (some (JValue.jobj fields)) = some { type := "", data := d } := by
    simp [ParseMessage, unmarshalMessage, ht, h2]
  refine ⟨hparse, ?_⟩
  unfold HandleMessage
  rw [if_neg (by simp [h3]), hparse]
  dsimp only
  rw [if_neg (by decide), if_neg (by decide), if_neg (by decide)]

/-- The user connecting in the C10 witness scenario. -/
def userC10 : User :=
  { id := "U1", name := "", email := "e", password := "", role := "" }

/-- Witness for C10: the literal frame `{}` (empty JSON object) on a
fresh client. -/
theorem C10_witness :
    ParseMessage (some (JValue.jobj [])) = some { type := "", data := "" } ∧
    HandleMessage (newClient userC10) 0 (some (JValue.jobj [])) =
      { client := { newClient userC10 with
                    rateLimiter := (rateAllow (newClient userC10).rateLimiter 0).2 },
        toSender := [Frame.errorFrame ErrUnknownMessageType "Unknown message type"],
        bidDispatch := none, disconnected := false } := by
  exact C10_empty_object [] "" (newClient userC10) 0 rfl rfl (by decide)
